import Mathlib

/-!
Verification of the DC-AE autoencoder core (`VAE/models/dcae.py`) against its
natural-language specification.  The Python modules are shallowly embedded:
pure name-to-operator selectors become Lean functions returning `Except`,
tensor code is modelled at three levels (exact rational matrices for the
attention formulas, unbounded index functions for pixel rearrangement, and a
shape-level interpreter for the encoder pipeline), and Python exceptions are
modelled with an explicit error type.
-/

/-- Kinds of Python exceptions that the embedded code can raise. -/
inductive PyErr where
  | valueError
  | assertionError
  | attributeError
  | zeroDivisionError
  | indexError
  | runtimeError
deriving DecidableEq, Repr

deriving instance DecidableEq for Except

/-- The activation operators that appear in the `ACTIVATION_FUNCTIONS` table
(`nn.SiLU`, `nn.Mish`, `nn.GELU`, `nn.ReLU`); `identity` stands for
`nn.Identity()` used by `ResBlock` when `act_fn is None`. -/
inductive Activation where
  | silu
  | mish
  | gelu
  | relu
  | identity
deriving DecidableEq, Repr

/-- The table `ACTIVATION_FUNCTIONS` from the source: keys `swish`, `silu`,
`mish`, `gelu`, `relu` (both `swish` and `silu` map to `nn.SiLU()`). -/
def ACTIVATION_FUNCTIONS : List (String × Activation) :=
  [("swish", Activation.silu), ("silu", Activation.silu), ("mish", Activation.mish),
   ("gelu", Activation.gelu), ("relu", Activation.relu)]

/-- Table keys, for membership statements. -/
def ACTIVATION_NAMES : List String :=
  ["swish", "silu", "mish", "gelu", "relu"]

/-- ASCII lowercasing of one character, as `str.lower()` acts on the
letters A–Z. -/
def lowerChar (c : Char) : Char :=
  if ('A' ≤ c ∧ c ≤ 'Z') then Char.ofNat (c.toNat + 32) else c

/-- Embeds Python `s.lower()` (ASCII range; every name the source compares
against is ASCII). -/
def pyLower (s : String) : String :=
  String.mk (s.data.map lowerChar)

/-- Embeds `get_activation`: lowercase the name, look it up in
`ACTIVATION_FUNCTIONS`, and raise `ValueError` when absent. -/
def get_activation (act_fn : String) : Except PyErr Activation :=
  match ACTIVATION_FUNCTIONS.lookup (pyLower act_fn) with
  | some f => Except.ok f
  | none => Except.error PyErr.valueError

/-- The normalization operators selectable by `get_normalization`. -/
inductive NormOp where
  | rms_norm
  | layer_norm
  | batch_norm
deriving DecidableEq, Repr

/-- Embeds `get_normalization` at the name-resolution level: the three
recognized names build the corresponding operator, any other name raises
`ValueError`.  (The numeric parameters of the constructed module are not
needed by the claims about this function.) -/
def get_normalization (norm_type : String) : Except PyErr NormOp :=
  if norm_type = "rms_norm" then Except.ok NormOp.rms_norm
  else if norm_type = "layer_norm" then Except.ok NormOp.layer_norm
  else if norm_type = "batch_norm" then Except.ok NormOp.batch_norm
  else Except.error PyErr.valueError

/-- The recognized normalization names. -/
def NORMALIZATION_NAMES : List String :=
  ["rms_norm", "layer_norm", "batch_norm"]

/-- Embeds the pre-affine part of `RMSNorm.forward` on a feature vector over
the last dimension: `x * torch.rsqrt(mean(x ** 2) + eps)`, with `rsqrt` the
reciprocal square root.  The affine scale/bias that may follow is not part of
this value. -/
noncomputable def RMSNorm.normalize {n : ℕ} (eps : ℝ) (x : Fin n → ℝ) : Fin n → ℝ :=
  fun i => x i * (Real.sqrt ((∑ j, x j ^ 2) / n + eps))⁻¹

/-- The eps used by the RMSNorm instances created in this file of the source
(`GLUMBConv` and `Decoder` pass `eps=1e-5`). -/
noncomputable def RMSNorm.eps_used : ℝ := 1 / 100000

/-- Embeds `F.pad(value, (0, 0, 0, 1), mode="constant", value=1)` on one
attention head: a `d × n` value matrix gains one extra all-ones row at the
bottom. -/
def SanaMultiscaleLinearAttention.padValue {d n : ℕ}
    (value : Matrix (Fin d) (Fin n) ℚ) : Matrix (Fin (d + 1)) (Fin n) ℚ :=
  fun i j => Fin.lastCases 1 (fun i' => value i' j) i

/-- Embeds `SanaMultiscaleLinearAttention.apply_linear_attention` on one
attention head with exact rational arithmetic: pad `value` with a row of
ones, form `scores = value_padded * keyᵀ`, then `scores * query`, and divide
the non-bias rows by the bias (last) row plus `eps`. -/
def SanaMultiscaleLinearAttention.apply_linear_attention {d n : ℕ} (eps : ℚ)
    (query key value : Matrix (Fin d) (Fin n) ℚ) : Matrix (Fin d) (Fin n) ℚ :=
  let padded := SanaMultiscaleLinearAttention.padValue value
  let scores := padded * key.transpose
  let hidden := scores * query
  fun i j => hidden i.castSucc j / (hidden (Fin.last d) j + eps)

/-- Embeds `SanaMultiscaleLinearAttention.apply_quadratic_attention` on one
attention head: `scores = keyᵀ * query`, normalize each column of `scores` by
its column sum (`torch.sum(scores, dim=2)`) plus `eps`, then multiply by
`value`. -/
def SanaMultiscaleLinearAttention.apply_quadratic_attention {d n : ℕ} (eps : ℚ)
    (query key value : Matrix (Fin d) (Fin n) ℚ) : Matrix (Fin d) (Fin n) ℚ :=
  let scores := key.transpose * query
  let normalized : Matrix (Fin n) (Fin n) ℚ :=
    fun i j => scores i j / ((∑ i', scores i' j) + eps)
  value * normalized

/-- The default `eps` of `SanaMultiscaleLinearAttention.__init__` (`1e-15`). -/
def SanaMultiscaleLinearAttention.default_eps : ℚ := 1 / 10 ^ 15

/-- The two attention code paths of `SanaMultiscaleAttnProcessor2_0`. -/
inductive AttentionPath where
  | linear
  | quadratic
deriving DecidableEq, Repr

/-- Embeds the path selection at the top of
`SanaMultiscaleAttnProcessor2_0.__call__`: `use_linear_attention` is set to
true exactly when `height * width > attn.attention_head_dim`.  It is a
function of the attention head dimension and the input's spatial size only. -/
def SanaMultiscaleAttnProcessor2_0.select_path
    (attention_head_dim height width : ℕ) : AttentionPath :=
  if height * width > attention_head_dim then AttentionPath.linear
  else AttentionPath.quadratic

/-- Embeds the attention application step of
`SanaMultiscaleAttnProcessor2_0.__call__`: dispatch on the selected path and
run the corresponding formula on the (already projected) per-head matrices. -/
def SanaMultiscaleAttnProcessor2_0.attend {d n : ℕ} (eps : ℚ)
    (attention_head_dim height width : ℕ)
    (query key value : Matrix (Fin d) (Fin n) ℚ) : Matrix (Fin d) (Fin n) ℚ :=
  match SanaMultiscaleAttnProcessor2_0.select_path attention_head_dim height width with
  | AttentionPath.linear =>
      SanaMultiscaleLinearAttention.apply_linear_attention eps query key value
  | AttentionPath.quadratic =>
      SanaMultiscaleLinearAttention.apply_quadratic_attention eps query key value

/-- A `1 × n` all-ones row, for stating the renormalization of the linear
attention formula. -/
def onesRow (n : ℕ) : Matrix (Fin 1) (Fin n) ℚ := fun _ _ => 1

/-- A single-sample feature map with unbounded index space: channel, row and
column indices map to a rational value.  Used for the exact value-level model
of the parameter-free pixel-rearrangement operations. -/
def Tens : Type := ℕ → ℕ → ℕ → ℚ

/-- A feature map all of whose elements are `k`. -/
def Tens.IsConst (t : Tens) (k : ℚ) : Prop := ∀ c h w, t c h w = k

/-- Embeds `F.pixel_unshuffle(t, f)` (space-to-depth): output channel
`c * f² + i * f + j` at spatial position `(h, w)` reads input channel `c` at
position `(h * f + i, w * f + j)`. -/
def F.pixel_unshuffle (f : ℕ) (t : Tens) : Tens :=
  fun c h w => t (c / f ^ 2) (h * f + (c % f ^ 2) / f) (w * f + (c % f ^ 2) % f)

/-- Embeds `y.unflatten(1, (-1, group_size))` followed by `y.mean(dim=2)`:
channel `c` of the output averages input channels
`c * group_size .. c * group_size + group_size - 1`. -/
def Tens.group_mean (group_size : ℕ) (t : Tens) : Tens :=
  fun c h w => (∑ j ∈ Finset.range group_size, t (c * group_size + j) h w) / group_size

/-- Embeds the parameter-free shortcut branch of `DCDownBlock2d.forward`
(the `y` computation when `self.shortcut` holds): pixel-unshuffle the input
by the block factor 2, regroup the channel axis into groups of
`group_size`, and average over each group. -/
def DCDownBlock2d.shortcut_branch (group_size : ℕ) (t : Tens) : Tens :=
  Tens.group_mean group_size (F.pixel_unshuffle 2 t)

/-- A single-sample tensor shape `(channels, height, width)`; the batch
dimension is carried unchanged by every operation and is omitted. -/
structure Shape where
  c : ℕ
  h : ℕ
  w : ℕ
deriving DecidableEq, Repr

/-- Shape semantics of `nn.Conv2d(in_channels, out_channels, kernel, stride,
padding)`: the input channel count must match and the kernel must fit into
the padded input (torch raises when the output size would be non-positive);
the output spatial size is `(size + 2 * padding - kernel) / stride + 1`. -/
def conv2dShape (in_channels out_channels kernel stride padding : ℕ)
    (sh : Shape) : Except PyErr Shape :=
  if sh.c = in_channels ∧ kernel ≤ sh.h + 2 * padding ∧ kernel ≤ sh.w + 2 * padding then
    Except.ok ⟨out_channels, (sh.h + 2 * padding - kernel) / stride + 1,
               (sh.w + 2 * padding - kernel) / stride + 1⟩
  else Except.error PyErr.runtimeError

/-- Shape semantics of `x + y`: the shapes must agree (the blocks below never
add tensors whose shapes differ only in broadcastable degenerate dimensions,
so exact equality is the faithful check). -/
def addShapes (x y : Shape) : Except PyErr Shape :=
  if x = y then Except.ok x else Except.error PyErr.runtimeError

/-- Shape semantics of `F.pixel_unshuffle(x, f)`: both spatial sizes must be
divisible by `f`; channels multiply by `f²`. -/
def pixel_unshuffleShape (f : ℕ) (sh : Shape) : Except PyErr Shape :=
  if 0 < f ∧ sh.h % f = 0 ∧ sh.w % f = 0 then
    Except.ok ⟨sh.c * f ^ 2, sh.h / f, sh.w / f⟩
  else Except.error PyErr.runtimeError

/-- Shape semantics of `F.pixel_shuffle(x, f)`: the channel count must be
divisible by `f²`; spatial sizes multiply by `f`. -/
def pixel_shuffleShape (f : ℕ) (sh : Shape) : Except PyErr Shape :=
  if 0 < f ∧ sh.c % f ^ 2 = 0 then
    Except.ok ⟨sh.c / f ^ 2, sh.h * f, sh.w * f⟩
  else Except.error PyErr.runtimeError

/-- Shape semantics of `x.unflatten(1, (-1, group_size))` followed by
`x.mean(dim=2)`: the channel count must split evenly into groups of
`group_size`. -/
def unflatten_meanShape (group_size : ℕ) (sh : Shape) : Except PyErr Shape :=
  if 0 < group_size ∧ sh.c % group_size = 0 then
    Except.ok ⟨sh.c / group_size, sh.h, sh.w⟩
  else Except.error PyErr.runtimeError

/-- Shape semantics of `x.repeat_interleave(repeats, dim=1)`. -/
def repeat_interleaveShape (repeats : ℕ) (sh : Shape) : Shape :=
  ⟨sh.c * repeats, sh.h, sh.w⟩

/-- Shape semantics of `F.interpolate(x, scale_factor=f)`. -/
def interpolateShape (f : ℕ) (sh : Shape) : Shape :=
  ⟨sh.c, sh.h * f, sh.w * f⟩

/-- Shape semantics of `nn.Linear(in_features, out_features)` applied over
the channel-last layout (`movedim(1, -1)` before, `movedim(-1, 1)` after). -/
def linearShape (in_features out_features : ℕ) (sh : Shape) : Except PyErr Shape :=
  if sh.c = in_features then Except.ok ⟨out_features, sh.h, sh.w⟩
  else Except.error PyErr.runtimeError

/-- Shape semantics of `torch.cat(first :: rest, dim=1)`: all spatial sizes
must agree; channel counts add. -/
def catShapes : Shape → List Shape → Except PyErr Shape
  | sh, [] => Except.ok sh
  | sh, s :: rest =>
      if s.h = sh.h ∧ s.w = sh.w then catShapes ⟨sh.c + s.c, sh.h, sh.w⟩ rest
      else Except.error PyErr.runtimeError

/-- Shape semantics of `torch.chunk(x, 2, dim=1)` followed by the elementwise
product of the two halves (`hidden_states * self.nonlinearity(gate)` in
`GLUMBConv.forward`): the channel count must be even for the halves to have
equal shapes. -/
def chunk2Shape (sh : Shape) : Except PyErr Shape :=
  if sh.c % 2 = 0 then Except.ok ⟨sh.c / 2, sh.h, sh.w⟩
  else Except.error PyErr.runtimeError

/-- Monadic map over a list, stopping at the first raised exception. -/
def mapExcept {α β : Type} (f : α → Except PyErr β) : List α → Except PyErr (List β)
  | [] => Except.ok []
  | a :: rest =>
      (f a).bind fun b => (mapExcept f rest).bind fun bs => Except.ok (b :: bs)

/-- The fields of `DCDownBlock2d.__init__` (the factor is the constant 2). -/
structure DCDownBlock2d where
  in_channels : ℕ
  out_channels : ℕ
  downsample : Bool
  shortcut : Bool
  group_size : ℕ
deriving DecidableEq, Repr

/-- The stride chosen by `DCDownBlock2d.__init__`: 1 when down-sampling via
pixel-unshuffle, otherwise 2. -/
def DCDownBlock2d.stride (b : DCDownBlock2d) : ℕ :=
  if b.downsample then 1 else 2

/-- Embeds `DCDownBlock2d.__init__`: computing
`group_size = in_channels * factor² // out_channels` raises
`ZeroDivisionError` when `out_channels = 0`; when `downsample` is set,
`assert out_channels % factor² == 0` raises `AssertionError` on violation.
No other divisibility condition is checked at construction. -/
def DCDownBlock2d.init (in_channels out_channels : ℕ)
    (downsample shortcut : Bool) : Except PyErr DCDownBlock2d :=
  if out_channels = 0 then Except.error PyErr.zeroDivisionError
  else
    let group_size := in_channels * 2 ^ 2 / out_channels
    if downsample ∧ ¬ out_channels % 2 ^ 2 = 0 then Except.error PyErr.assertionError
    else Except.ok ⟨in_channels, out_channels, downsample, shortcut, group_size⟩

/-- Shape semantics of `DCDownBlock2d.forward`: the learned branch is a conv
(to `out_channels / factor²` channels when down-sampling, then
pixel-unshuffle; otherwise a stride-2 conv to `out_channels`); the shortcut
branch pixel-unshuffles the input, averages channel groups of `group_size`,
and is added to the learned branch. -/
def DCDownBlock2d.fwdShape (b : DCDownBlock2d) (sh : Shape) : Except PyErr Shape :=
  (conv2dShape b.in_channels
      (if b.downsample then b.out_channels / 2 ^ 2 else b.out_channels)
      3 b.stride 1 sh).bind fun x0 =>
  (if b.downsample then pixel_unshuffleShape 2 x0 else Except.ok x0).bind fun x =>
  if b.shortcut then
    (pixel_unshuffleShape 2 sh).bind fun y0 =>
    (unflatten_meanShape b.group_size y0).bind fun y =>
    addShapes x y
  else Except.ok x

/-- The fields of `DCUpBlock2d.__init__` (the factor is the constant 2). -/
structure DCUpBlock2d where
  in_channels : ℕ
  out_channels : ℕ
  interpolate : Bool
  shortcut : Bool
  repeats : ℕ
deriving DecidableEq, Repr

/-- Embeds `DCUpBlock2d.__init__`: computing
`repeats = out_channels * factor² // in_channels` raises `ZeroDivisionError`
when `in_channels = 0`; no divisibility condition is asserted. -/
def DCUpBlock2d.init (in_channels out_channels : ℕ)
    (interpolate shortcut : Bool) : Except PyErr DCUpBlock2d :=
  if in_channels = 0 then Except.error PyErr.zeroDivisionError
  else Except.ok ⟨in_channels, out_channels, interpolate, shortcut,
                  out_channels * 2 ^ 2 / in_channels⟩

/-- Shape semantics of `DCUpBlock2d.forward`: interpolate-then-conv, or
conv-to-`out_channels * factor²`-then-pixel-shuffle; the shortcut branch
repeat-interleaves the input channels by `repeats`, pixel-shuffles, and is
added to the learned branch. -/
def DCUpBlock2d.fwdShape (b : DCUpBlock2d) (sh : Shape) : Except PyErr Shape :=
  (if b.interpolate then
    (conv2dShape b.in_channels b.out_channels 3 1 1 (interpolateShape 2 sh))
  else
    (conv2dShape b.in_channels (b.out_channels * 2 ^ 2) 3 1 1 sh).bind fun x0 =>
    pixel_shuffleShape 2 x0).bind fun x =>
  if b.shortcut then
    (pixel_shuffleShape 2 (repeat_interleaveShape b.repeats sh)).bind fun y =>
    addShapes x y
  else Except.ok x

/-- The fields of `ResBlock.__init__` relevant to shape behaviour, after the
activation and normalization names have been resolved. -/
structure ResBlock where
  in_channels : ℕ
  out_channels : ℕ
  norm_type : String
  nonlinearity : Activation
deriving DecidableEq, Repr

/-- The declared default `act_fn` of `ResBlock.__init__`. -/
def ResBlock.default_act_fn : Option String := some ("relu6")

/-- The declared default `norm_type` of `ResBlock.__init__`. -/
def ResBlock.default_norm_type : String := "batch_norm"

/-- Embeds `ResBlock.__init__`: the nonlinearity is
`get_activation(act_fn) if act_fn is not None else nn.Identity()` (so an
unrecognized name raises `ValueError` here), then the two convolutions are
created, then `get_normalization(norm_type, out_channels)` may raise for an
unrecognized normalization name. -/
def ResBlock.init (in_channels out_channels : ℕ) (norm_type : String)
    (act_fn : Option String) : Except PyErr ResBlock :=
  (match act_fn with
   | some a => get_activation a
   | none => Except.ok Activation.identity).bind fun nl =>
  (get_normalization norm_type).bind fun _ =>
  Except.ok ⟨in_channels, out_channels, norm_type, nl⟩

/-- Shape semantics of `ResBlock.forward`: conv `in → in`, nonlinearity,
conv `in → out`, normalization (shape preserving), plus the input as
residual. -/
def ResBlock.fwdShape (b : ResBlock) (sh : Shape) : Except PyErr Shape :=
  ((conv2dShape b.in_channels b.in_channels 3 1 1 sh).bind fun x =>
   conv2dShape b.in_channels b.out_channels 3 1 1 x).bind fun x =>
  addShapes x sh

/-- The fields of `SanaMultiscaleLinearAttention.__init__` needed for its
shape behaviour. -/
structure SanaMultiscaleLinearAttentionCfg where
  in_channels : ℕ
  out_channels : ℕ
  num_attention_heads : ℕ
  attention_head_dim : ℕ
  kernel_sizes : List ℕ
  residual_connection : Bool
deriving DecidableEq, Repr

/-- Inner projection width: `num_attention_heads * attention_head_dim`. -/
def SanaMultiscaleLinearAttentionCfg.inner_dim
    (a : SanaMultiscaleLinearAttentionCfg) : ℕ :=
  a.num_attention_heads * a.attention_head_dim

/-- Embeds `SanaMultiscaleLinearAttention.__init__` as instantiated with
`num_attention_heads=None` and `mult=1.0` (the `EfficientViTBlock` call
site): `num_attention_heads = int(in_channels // attention_head_dim * 1.0)`
raises `ZeroDivisionError` when the head dimension is zero; each
`SanaMultiscaleAttentionProjection` creates grouped convolutions with
`groups = 3 * inner_dim` and `groups = 3 * num_attention_heads` and a spatial
kernel of the configured size, which torch rejects at construction when the
group count or the kernel size is zero; `get_normalization` validates the
normalization name. -/
def SanaMultiscaleLinearAttentionCfg.init (in_channels out_channels attention_head_dim : ℕ)
    (norm_type : String) (kernel_sizes : List ℕ) (residual_connection : Bool) :
    Except PyErr SanaMultiscaleLinearAttentionCfg :=
  if attention_head_dim = 0 then Except.error PyErr.zeroDivisionError
  else
    let num_attention_heads := in_channels / attention_head_dim
    (if (¬ kernel_sizes = []) ∧ (num_attention_heads = 0 ∨ kernel_sizes.any (fun ks => ks = 0)) then
      Except.error PyErr.valueError
    else Except.ok ()).bind fun _ =>
    (get_normalization norm_type).bind fun _ =>
    Except.ok ⟨in_channels, out_channels, num_attention_heads, attention_head_dim,
               kernel_sizes, residual_connection⟩

/-- Shape semantics of `SanaMultiscaleAttentionProjection.forward`: a
depthwise conv with same padding (`kernel_size // 2`) followed by a 1×1
grouped conv, both channel preserving on `3 * in_channels` channels. -/
def SanaMultiscaleAttentionProjection.fwdShape (in_channels kernel_size : ℕ)
    (sh : Shape) : Except PyErr Shape :=
  (conv2dShape (3 * in_channels) (3 * in_channels) kernel_size 1 (kernel_size / 2) sh).bind fun x =>
  conv2dShape (3 * in_channels) (3 * in_channels) 1 1 0 x

/-- Shape semantics of the reshape
`hidden_states.reshape(batch_size, -1, 3 * attention_head_dim, height * width)`
in the processor: the inferred group dimension requires a positive element
count divisible by `rows * height * width`; returns the inferred group
count. -/
def reshapeHeadsShape (sh : Shape) (rows : ℕ) : Except PyErr ℕ :=
  if 0 < rows * (sh.h * sh.w) ∧ 0 < sh.c * sh.h * sh.w ∧
     (sh.c * sh.h * sh.w) % (rows * (sh.h * sh.w)) = 0 then
    Except.ok ((sh.c * sh.h * sh.w) / (rows * (sh.h * sh.w)))
  else Except.error PyErr.runtimeError

/-- Shape semantics of `SanaMultiscaleAttnProcessor2_0.__call__`: Q, K, V
linear projections to `inner_dim`, concatenation, the multiscale
projections, concatenation of all scales, the head reshape, the attention
formula (which maps `d × n` head matrices to `d × n`), the reshape back to
`(groups * head_dim, height, width)`, the output projection, the
normalization (shape preserving), and the optional residual. -/
def SanaMultiscaleLinearAttentionCfg.fwdShape (a : SanaMultiscaleLinearAttentionCfg)
    (sh : Shape) : Except PyErr Shape :=
  ((linearShape a.in_channels a.inner_dim sh).bind fun q =>
   (linearShape a.in_channels a.inner_dim sh).bind fun k =>
   (linearShape a.in_channels a.inner_dim sh).bind fun v =>
   (catShapes q [k, v]).bind fun base =>
   (mapExcept (fun ks => SanaMultiscaleAttentionProjection.fwdShape a.inner_dim ks base)
      a.kernel_sizes).bind fun scales =>
   (catShapes base scales).bind fun all_qkv =>
   (reshapeHeadsShape all_qkv (3 * a.attention_head_dim)).bind fun groups =>
   linearShape (a.inner_dim * (1 + a.kernel_sizes.length)) a.out_channels
     ⟨groups * a.attention_head_dim, sh.h, sh.w⟩).bind fun o =>
  if a.residual_connection then addShapes o sh else Except.ok o

/-- Shape semantics of `GLUMBConv.forward`: 1×1 conv to `8 * in_channels`,
depthwise 3×3 conv, gated split back to `4 * in_channels`, 1×1 conv to
`out_channels`, RMS normalization (shape preserving), plus the input as
residual. -/
def GLUMBConv.fwdShape (in_channels out_channels : ℕ) (sh : Shape) :
    Except PyErr Shape :=
  ((conv2dShape in_channels (4 * in_channels * 2) 1 1 0 sh).bind fun x =>
   (conv2dShape (4 * in_channels * 2) (4 * in_channels * 2) 3 1 1 x).bind fun x =>
   (chunk2Shape x).bind fun x =>
   conv2dShape (4 * in_channels) out_channels 1 1 0 x).bind fun x =>
  addShapes x sh

/-- The fields of `EfficientViTBlock.__init__`: the attention block (with
`out_channels = in_channels` and residual connection enabled) and the
`GLUMBConv` companion with `in_channels = out_channels`. -/
structure EfficientViTBlock where
  attn : SanaMultiscaleLinearAttentionCfg
  conv_out_channels : ℕ
deriving DecidableEq, Repr

/-- Embeds `EfficientViTBlock.__init__`. -/
def EfficientViTBlock.init (in_channels attention_head_dim : ℕ)
    (norm_type : String) (qkv_multiscales : List ℕ) : Except PyErr EfficientViTBlock :=
  (SanaMultiscaleLinearAttentionCfg.init in_channels in_channels attention_head_dim
     norm_type qkv_multiscales true).bind fun a =>
  Except.ok ⟨a, in_channels⟩

/-- Shape semantics of `EfficientViTBlock.forward`: attention then
`GLUMBConv`. -/
def EfficientViTBlock.fwdShape (b : EfficientViTBlock) (sh : Shape) :
    Except PyErr Shape :=
  (b.attn.fwdShape sh).bind fun x =>
  GLUMBConv.fwdShape b.conv_out_channels b.conv_out_channels x

/-- A constructed block of the encoder stack. -/
inductive EncBlock where
  | res (b : ResBlock)
  | vit (b : EfficientViTBlock)
  | down (b : DCDownBlock2d)
deriving DecidableEq, Repr

/-- Shape semantics of one constructed block. -/
def EncBlock.fwdShape : EncBlock → Shape → Except PyErr Shape
  | EncBlock.res b, sh => b.fwdShape sh
  | EncBlock.vit b, sh => b.fwdShape sh
  | EncBlock.down b, sh => b.fwdShape sh

/-- Embeds `get_block`: a `ResBlock` or an `EfficientViTBlock` according to
the tag (note the `EfficientViTBlock` branch ignores `out_channels` and
`act_fn`, as in the source), `ValueError` for any other tag. -/
def get_block (block_type : String) (in_channels out_channels attention_head_dim : ℕ)
    (norm_type act_fn : String) (qkv_mutliscales : List ℕ) : Except PyErr EncBlock :=
  if block_type = ("ResBlock") then
    (ResBlock.init in_channels out_channels norm_type (some act_fn)).map EncBlock.res
  else if block_type = ("EfficientViTBlock") then
    (EfficientViTBlock.init in_channels attention_head_dim norm_type
       qkv_mutliscales).map EncBlock.vit
  else Except.error PyErr.valueError

/-- One stage of the encoder configuration: the entries of
`block_out_channels`, `layers_per_block`, `block_type` and `qkv_multiscales`
at one index, plus the next stage's channel count (`block_out_channels[i+1]`,
read by the down-sampling block; 0 when there is no next entry, in which case
it is never read because of the `i < num_blocks - 1` guard). -/
structure StageCfg where
  out_channel : ℕ
  next_channel : ℕ
  num_layers : ℕ
  btype : String
  scales : List ℕ
deriving DecidableEq, Repr

/-- Zips the four per-stage configuration tuples into stage records,
truncating at the shortest as `zip` does in the source loop. -/
def mkStageCfgs : List ℕ → List ℕ → List String → List (List ℕ) → List StageCfg
  | c :: cs, n :: ns, t :: ts, q :: qs =>
      ⟨c, (match cs with | [] => 0 | c' :: _ => c'), n, t, q⟩ :: mkStageCfgs cs ns ts qs
  | _, _, _, _ => []

/-- Embeds the `down_blocks` construction loop of `Encoder.__init__`: for
stage `i`, `num_layers` copies of the configured block (with
`norm_type="rms_norm"`, `act_fn="silu"`), then — when `i < num_blocks - 1`
and the stage has at least one layer — a `DCDownBlock2d` from this stage's
channels to the next stage's channels with the shortcut enabled.  The
resulting per-stage lists are flattened, as `nn.Sequential` composition
makes the nesting irrelevant to the forward semantics. -/
def Encoder.buildStages (attention_head_dim : ℕ) (downsample : Bool)
    (num_blocks : ℕ) : ℕ → List StageCfg → Except PyErr (List EncBlock)
  | _, [] => Except.ok []
  | i, s :: rest =>
    (get_block s.btype s.out_channel s.out_channel attention_head_dim
       ("rms_norm") ("silu") s.scales).bind fun b =>
    (if i < num_blocks - 1 ∧ 0 < s.num_layers then
       (DCDownBlock2d.init s.out_channel s.next_channel downsample true).map
         fun db => List.replicate s.num_layers b ++ [EncBlock.down db]
     else Except.ok (List.replicate s.num_layers b)).bind fun stage_blocks =>
    (Encoder.buildStages attention_head_dim downsample num_blocks (i + 1) rest).bind fun more =>
    Except.ok (stage_blocks ++ more)

/-- The `conv_in` of the encoder: a plain 3×3 convolution when the first
stage has layers, otherwise a shortcut-free `DCDownBlock2d`. -/
inductive EncConvIn where
  | conv (in_channels out_channels : ℕ)
  | down (b : DCDownBlock2d)
deriving DecidableEq, Repr

/-- Shape semantics of the encoder's `conv_in`. -/
def EncConvIn.fwdShape : EncConvIn → Shape → Except PyErr Shape
  | EncConvIn.conv i o, sh => conv2dShape i o 3 1 1 sh
  | EncConvIn.down b, sh => b.fwdShape sh

/-- The construction parameters of `Encoder.__init__`.  `block_type` is
taken as an already replicated per-stage list (the source replicates a bare
string to `num_blocks` copies). -/
structure EncoderCfg where
  in_channels : ℕ
  latent_channels : ℕ
  attention_head_dim : ℕ
  block_type : List String
  block_out_channels : List ℕ
  layers_per_block : List ℕ
  qkv_multiscales : List (List ℕ)
  downsample_block_type : String
  out_shortcut : Bool
deriving DecidableEq, Repr

/-- The constructed encoder. -/
structure Encoder where
  conv_in : EncConvIn
  down_blocks : List EncBlock
  conv_out_in : ℕ
  latent_channels : ℕ
  out_shortcut : Bool
  out_shortcut_average_group_size : ℕ
deriving DecidableEq, Repr

/-- Embeds `Encoder.__init__`: indexing an empty configuration tuple raises
`IndexError`; `conv_in` is a plain conv to `block_out_channels[0]` when
`layers_per_block[0] > 0`, else a shortcut-free down block to
`block_out_channels[1]`; the stage loop builds the down blocks; with the
outer shortcut, `out_shortcut_average_group_size =
block_out_channels[-1] // latent_channels` raises `ZeroDivisionError` when
`latent_channels = 0`. -/
def Encoder.init (cfg : EncoderCfg) : Except PyErr Encoder :=
  match cfg.block_out_channels, cfg.layers_per_block with
  | [], _ => Except.error PyErr.indexError
  | _ :: _, [] => Except.error PyErr.indexError
  | boc0 :: bocRest, lpb0 :: _ =>
    let num_blocks := cfg.block_out_channels.length
    let ds := cfg.downsample_block_type = ("pixel_unshuffle")
    (if 0 < lpb0 then Except.ok (EncConvIn.conv cfg.in_channels boc0)
     else
       match bocRest with
       | [] => Except.error PyErr.indexError
       | boc1 :: _ =>
         (DCDownBlock2d.init cfg.in_channels boc1 ds false).map EncConvIn.down).bind fun ci =>
    (Encoder.buildStages cfg.attention_head_dim ds num_blocks 0
       (mkStageCfgs cfg.block_out_channels cfg.layers_per_block cfg.block_type
          cfg.qkv_multiscales)).bind fun blocks =>
    let last_channel := cfg.block_out_channels.getLastD 0
    (if cfg.out_shortcut then
       if cfg.latent_channels = 0 then Except.error PyErr.zeroDivisionError
       else Except.ok (last_channel / cfg.latent_channels)
     else Except.ok 0).bind fun group_size =>
    Except.ok ⟨ci, blocks, last_channel, cfg.latent_channels, cfg.out_shortcut, group_size⟩

/-- Sequential shape semantics of a list of blocks. -/
def Encoder.fwdList : List EncBlock → Shape → Except PyErr Shape
  | [], sh => Except.ok sh
  | b :: rest, sh => (b.fwdShape sh).bind (Encoder.fwdList rest)

/-- Shape semantics of `Encoder.forward`: `conv_in`, the stage blocks, then
the output projection to `latent_channels`, plus — with the outer shortcut —
the group-averaged final feature map. -/
def Encoder.fwdShape (e : Encoder) (sh : Shape) : Except PyErr Shape :=
  (e.conv_in.fwdShape sh).bind fun x =>
  (Encoder.fwdList e.down_blocks x).bind fun x =>
  if e.out_shortcut then
    (unflatten_meanShape e.out_shortcut_average_group_size x).bind fun y =>
    (conv2dShape e.conv_out_in e.latent_channels 3 1 1 x).bind fun z =>
    addShapes z y
  else conv2dShape e.conv_out_in e.latent_channels 3 1 1 x

/-- Construct an encoder from a configuration and run its shape semantics. -/
def Encoder.runShape (cfg : EncoderCfg) (sh : Shape) : Except PyErr Shape :=
  (Encoder.init cfg).bind fun e => e.fwdShape sh

/-- A batch of samples, indexed along dimension 0; each sample keeps its own
representation abstract. -/
abbrev Batch (α : Type) : Type := List α

/-- Embeds `AutoencoderDC.encode`: when slicing is enabled and the batch has
more than one element, run the per-sample path `_encode` on every
single-sample slice of `x.split(1)` and concatenate the results in order;
otherwise run `_encode` on the whole batch.  The per-sample path is passed
as a function (it defers to the external tiled collaborator when tiling
applies, otherwise runs the Encoder). -/
def AutoencoderDC.encode {α : Type} (use_slicing : Bool)
    (encodeOne : Batch α → Batch α) (x : Batch α) : Batch α :=
  if use_slicing ∧ 1 < x.length then
    ((x.map fun s => encodeOne [s]).flatten)
  else encodeOne x

/-- A `torch.Tensor` has no attribute `sample`; the attribute access
`self._decode(z_slice).sample` in `AutoencoderDC.decode` therefore raises
`AttributeError` at runtime (`_decode` returns the decoder's plain output
tensor). -/
def Tensor.getattr_sample {α : Type} (_t : Batch α) : Except PyErr (Batch α) :=
  Except.error PyErr.attributeError

/-- Embeds `AutoencoderDC.decode`: when slicing is enabled and the batch has
more than one element, evaluate `self._decode(z_slice).sample` on every
single-sample slice and concatenate; otherwise run `_decode` on the whole
batch. -/
def AutoencoderDC.decode {α : Type} (use_slicing : Bool)
    (decodeOne : Batch α → Batch α) (z : Batch α) : Except PyErr (Batch α) :=
  if use_slicing ∧ 1 < z.length then
    (mapExcept (fun slice => Tensor.getattr_sample (decodeOne slice))
       (z.map fun s => [s])).bind fun slices =>
    Except.ok slices.flatten
  else Except.ok (decodeOne z)

/-- The tiling-related state of `AutoencoderDC`: the `use_tiling` flag and
the four numeric tile parameters. -/
structure TilingState where
  use_tiling : Bool
  tile_sample_min_height : ℤ
  tile_sample_min_width : ℤ
  tile_sample_stride_height : ℤ
  tile_sample_stride_width : ℤ
deriving DecidableEq, Repr

/-- The tiling state set by `AutoencoderDC.__init__`. -/
def AutoencoderDC.init_tiling : TilingState :=
  ⟨false, 512, 512, 448, 448⟩

/-- Python truthiness of an optional numeric argument: `None` and `0` are
falsy, any other number is truthy. -/
def pyTruthy (a : Option ℤ) : Bool :=
  match a with
  | none => false
  | some n => decide (¬ n = 0)

/-- Python `a or b` on an optional numeric `a` and a numeric `b`. -/
def pyOr (a : Option ℤ) (b : ℤ) : ℤ :=
  match a with
  | none => b
  | some n => if n = 0 then b else n

/-- Embeds `AutoencoderDC.enable_tiling`: set `use_tiling`, and update each
tile parameter with `argument or current_value`. -/
def AutoencoderDC.enable_tiling (s : TilingState)
    (tile_sample_min_height tile_sample_min_width
     tile_sample_stride_height tile_sample_stride_width : Option ℤ) : TilingState :=
  { use_tiling := true
    tile_sample_min_height := pyOr tile_sample_min_height s.tile_sample_min_height
    tile_sample_min_width := pyOr tile_sample_min_width s.tile_sample_min_width
    tile_sample_stride_height := pyOr tile_sample_stride_height s.tile_sample_stride_height
    tile_sample_stride_width := pyOr tile_sample_stride_width s.tile_sample_stride_width }

lemma string_beq_eq (a b : String) : (a == b) = decide (a = b) := rfl

lemma get_activation_isOk_iff (act_fn : String) :
    (get_activation act_fn).isOk = true ↔ pyLower act_fn ∈ ACTIVATION_NAMES := by
  by_cases h1 : pyLower act_fn = "swish" <;>
    by_cases h2 : pyLower act_fn = "silu" <;>
      by_cases h3 : pyLower act_fn = "mish" <;>
        by_cases h4 : pyLower act_fn = "gelu" <;>
          by_cases h5 : pyLower act_fn = "relu" <;>
            simp [get_activation, ACTIVATION_FUNCTIONS, ACTIVATION_NAMES, List.lookup,
              string_beq_eq, h1, h2, h3, h4, h5, Except.isOk, Except.toBool]

lemma get_normalization_isOk_iff (norm_type : String) :
    (get_normalization norm_type).isOk = true ↔ norm_type ∈ NORMALIZATION_NAMES := by
  by_cases h1 : norm_type = "rms_norm" <;>
    by_cases h2 : norm_type = "layer_norm" <;>
      by_cases h3 : norm_type = "batch_norm" <;>
        simp [get_normalization, NORMALIZATION_NAMES, h1, h2, h3, Except.isOk, Except.toBool]

/-- C6: `get_activation` succeeds exactly when the lowercased name is one of
the recognized activation names (`swish`, `silu`, `mish`, `gelu`, `relu`) and
raises `ValueError` otherwise; `get_normalization` succeeds for exactly the
names `rms_norm`, `layer_norm`, `batch_norm` and raises `ValueError` for any
other name. -/
theorem selector_name_validation (name : String) :
    ((get_activation name).isOk = true ↔ pyLower name ∈ ACTIVATION_NAMES) ∧
    ((get_normalization name).isOk = true ↔ name ∈ NORMALIZATION_NAMES) :=
  ⟨get_activation_isOk_iff name, get_normalization_isOk_iff name⟩

/-- C2: the processor applies the linear-cost formula exactly when
`height * width > attention_head_dim` and the quadratic-cost formula exactly
when `height * width <= attention_head_dim`; the selection is a function of
the attention head dimension and the input's spatial size only (no runtime
flag appears in `select_path`). -/
theorem attention_formula_switch (attention_head_dim height width : ℕ) :
    (SanaMultiscaleAttnProcessor2_0.select_path attention_head_dim height width
        = AttentionPath.linear ↔ attention_head_dim < height * width) ∧
    (∀ (d n : ℕ) (eps : ℚ) (query key value : Matrix (Fin d) (Fin n) ℚ),
      SanaMultiscaleAttnProcessor2_0.attend eps attention_head_dim height width query key value =
        if attention_head_dim < height * width
        then SanaMultiscaleLinearAttention.apply_linear_attention eps query key value
        else SanaMultiscaleLinearAttention.apply_quadratic_attention eps query key value) := by
  constructor
  · unfold SanaMultiscaleAttnProcessor2_0.select_path
    split
    · next hlt => exact iff_of_true rfl hlt
    · next hge => exact iff_of_false (by decide) hge
  · intro d n eps query key value
    unfold SanaMultiscaleAttnProcessor2_0.attend SanaMultiscaleAttnProcessor2_0.select_path
    by_cases h : attention_head_dim < height * width
    · rw [if_pos h, if_pos h]
    · rw [if_neg h, if_neg h]

lemma pyOr_ite (a : Option ℤ) (b : ℤ) :
    pyOr a b = if pyTruthy a then a.getD 0 else b := by
  rcases a with _ | n
  · simp [pyOr, pyTruthy]
  · by_cases h : n = 0 <;> simp [pyOr, pyTruthy, h]

lemma pyOr_eq_zero_iff (a : Option ℤ) (b : ℤ) :
    pyOr a b = 0 ↔ (pyTruthy a = false ∧ b = 0) := by
  rcases a with _ | n
  · simp [pyOr, pyTruthy]
  · by_cases h : n = 0 <;> simp [pyOr, pyTruthy, h]

/-- C9: `enable_tiling` sets `use_tiling` to true, and each of the four tile
parameters is updated to the passed argument exactly when that argument is
truthy; a `None` or `0` argument leaves the stored value unchanged, and a
parameter can end up `0` only if it already was `0` (so it can never be set
to `0` through this interface). -/
theorem enable_tiling_contract (s : TilingState) (mh mw sth stw : Option ℤ) :
    (AutoencoderDC.enable_tiling s mh mw sth stw).use_tiling = true ∧
    ((AutoencoderDC.enable_tiling s mh mw sth stw).tile_sample_min_height
      = if pyTruthy mh then mh.getD 0 else s.tile_sample_min_height) ∧
    ((AutoencoderDC.enable_tiling s mh mw sth stw).tile_sample_min_width
      = if pyTruthy mw then mw.getD 0 else s.tile_sample_min_width) ∧
    ((AutoencoderDC.enable_tiling s mh mw sth stw).tile_sample_stride_height
      = if pyTruthy sth then sth.getD 0 else s.tile_sample_stride_height) ∧
    ((AutoencoderDC.enable_tiling s mh mw sth stw).tile_sample_stride_width
      = if pyTruthy stw then stw.getD 0 else s.tile_sample_stride_width) ∧
    ((AutoencoderDC.enable_tiling s mh mw sth stw).tile_sample_min_height = 0
      ↔ (pyTruthy mh = false ∧ s.tile_sample_min_height = 0)) ∧
    ((AutoencoderDC.enable_tiling s mh mw sth stw).tile_sample_min_width = 0
      ↔ (pyTruthy mw = false ∧ s.tile_sample_min_width = 0)) ∧
    ((AutoencoderDC.enable_tiling s mh mw sth stw).tile_sample_stride_height = 0
      ↔ (pyTruthy sth = false ∧ s.tile_sample_stride_height = 0)) ∧
    ((AutoencoderDC.enable_tiling s mh mw sth stw).tile_sample_stride_width = 0
      ↔ (pyTruthy stw = false ∧ s.tile_sample_stride_width = 0)) :=
  ⟨rfl, pyOr_ite mh s.tile_sample_min_height, pyOr_ite mw s.tile_sample_min_width,
   pyOr_ite sth s.tile_sample_stride_height, pyOr_ite stw s.tile_sample_stride_width,
   pyOr_eq_zero_iff mh s.tile_sample_min_height, pyOr_eq_zero_iff mw s.tile_sample_min_width,
   pyOr_eq_zero_iff sth s.tile_sample_stride_height,
   pyOr_eq_zero_iff stw s.tile_sample_stride_width⟩

/-- C1: with slicing enabled, `encode` on a batch of more than one sample
equals the concatenation, in input order, of the per-sample path `_encode`
applied to each single-sample slice — but `decode` on such a batch always
raises `AttributeError`, because it evaluates `self._decode(z_slice).sample`
while `_decode` returns a plain tensor that has no `sample` attribute; so
decode does not complete even when the per-sample path does. -/
theorem slicing_encode_concat_decode_attribute_error
    (α : Type) (encodeOne decodeOne : Batch α → Batch α) (x z : Batch α) :
    (AutoencoderDC.encode true encodeOne x =
       if 1 < x.length then (x.map fun s => encodeOne [s]).flatten else encodeOne x) ∧
    (AutoencoderDC.decode true decodeOne z =
       if 1 < z.length then Except.error PyErr.attributeError
       else Except.ok (decodeOne z)) := by
  constructor
  · unfold AutoencoderDC.encode
    simp
  · unfold AutoencoderDC.decode
    rcases z with _ | ⟨a, z'⟩
    · simp
    · rcases z' with _ | ⟨b, z''⟩
      · simp
      · simp [mapExcept, Tensor.getattr_sample, Except.bind]

/-- C10: the declared default `act_fn` of `ResBlock` is `relu6`, which is
absent from the activation table, so constructing a `ResBlock` with its
default activation raises `ValueError`; in general construction (with the
default `batch_norm`) succeeds exactly when the lowercased activation name
is in the table. -/
theorem resblock_default_act_unconstructible (in_channels out_channels : ℕ) :
    ResBlock.default_act_fn = some ("relu6") ∧
    (ResBlock.init in_channels out_channels ResBlock.default_norm_type
        ResBlock.default_act_fn).isOk = false ∧
    (∀ name : String,
      (ResBlock.init in_channels out_channels ResBlock.default_norm_type (some name)).isOk = true
        ↔ pyLower name ∈ ACTIVATION_NAMES) := by
  refine ⟨rfl, ?_, ?_⟩
  · have h : get_activation ("relu6") = Except.error PyErr.valueError := by decide
    simp [ResBlock.init, ResBlock.default_act_fn, ResBlock.default_norm_type, h, Except.bind,
      Except.isOk, Except.toBool]
  · intro name
    have hiff := get_activation_isOk_iff name
    rcases h : get_activation name with e | f
    · rw [h] at hiff
      simp [Except.isOk, Except.toBool] at hiff
      simp [ResBlock.init, ResBlock.default_norm_type, h, Except.bind, Except.isOk,
        Except.toBool, hiff, get_normalization]
    · rw [h] at hiff
      simp [Except.isOk, Except.toBool] at hiff
      simp [ResBlock.init, ResBlock.default_norm_type, h, Except.bind, Except.isOk,
        Except.toBool, hiff, get_normalization]

/-- C3 counterexample: `DCUpBlock2d(in_channels=3, out_channels=2)` violates
the channel-repeat divisibility invariant (`2 * 4 % 3 ≠ 0`) yet constructs
without any assertion error; the violation surfaces only at forward time as
a shape error. -/
theorem divisibility_checks_counterexample :
    DCUpBlock2d.init 3 2 false true = Except.ok ⟨3, 2, false, true, 2⟩ ∧
    ¬ (2 * 2 ^ 2) % 3 = 0 ∧
    ((DCUpBlock2d.init 3 2 false true).bind fun b => b.fwdShape ⟨3, 4, 4⟩)
      = Except.error PyErr.runtimeError :=
  ⟨by decide, by decide, by decide⟩

/-- C3 amended: of the three divisibility invariants, only
`out_channels % factor² == 0` for a down-sampling `DCDownBlock2d` is
asserted at construction time; for nonzero channel counts a `DCDownBlock2d`
constructs successfully if and only if that single assertion holds, and a
`DCUpBlock2d` always constructs successfully (the group-averaging and
channel-repeat invariants are not checked until forward time). -/
theorem init_time_checks_amended (inD outD : ℕ) (dsD scD : Bool)
    (inU outU : ℕ) (ipU scU : Bool) (hD : 0 < outD) (hU : 0 < inU) :
    ((DCDownBlock2d.init inD outD dsD scD).isOk = true
      ↔ (dsD = true → outD % 2 ^ 2 = 0)) ∧
    (DCUpBlock2d.init inU outU ipU scU).isOk = true := by
  constructor
  · unfold DCDownBlock2d.init
    rw [if_neg (by omega)]
    by_cases hds : dsD = true ∧ ¬ outD % 2 ^ 2 = 0
    · rw [if_pos hds]
      exact iff_of_false (by simp [Except.isOk, Except.toBool])
        (fun himp => hds.2 (himp hds.1))
    · rw [if_neg hds]
      refine iff_of_true rfl ?_
      intro hd
      by_contra hmod
      exact hds ⟨hd, hmod⟩
  · unfold DCUpBlock2d.init
    rw [if_neg (by omega)]
    rfl

/-- C3 witness: the amended characterization evaluated at concrete blocks. -/
theorem init_time_checks_amended_witness :
    0 < 4 ∧ 0 < 3 ∧
    (((DCDownBlock2d.init 6 4 true true).isOk = true ↔ (true = true → 4 % 2 ^ 2 = 0)) ∧
      (DCUpBlock2d.init 3 5 false true).isOk = true) :=
  ⟨by decide, by decide,
   init_time_checks_amended 6 4 true true 3 5 false true (by decide) (by decide)⟩

/-- C8: for a `DCDownBlock2d` constructed with the shortcut enabled and a
positive `group_size`, the parameter-free shortcut branch (pixel-unshuffle,
regroup channels into groups of `group_size`, average over each group) maps
a feature map whose every element is `k` to one whose every element is `k`. -/
theorem down_shortcut_constant (b : DCDownBlock2d) (in_channels out_channels : ℕ)
    (downsample : Bool) (t : Tens) (k : ℚ)
    (_hb : DCDownBlock2d.init in_channels out_channels downsample true = Except.ok b)
    (hg : 0 < b.group_size) (ht : t.IsConst k) :
    (DCDownBlock2d.shortcut_branch b.group_size t).IsConst k := by
  intro c h w
  unfold DCDownBlock2d.shortcut_branch Tens.group_mean F.pixel_unshuffle
  rw [Finset.sum_congr rfl fun j _ => ht _ _ _]
  have hg' : (b.group_size : ℚ) ≠ 0 := Nat.cast_ne_zero.mpr hg.ne'
  simp [Finset.sum_const, Finset.card_range, nsmul_eq_mul]
  rw [mul_div_cancel_left₀ _ hg']

/-- C8 witness: the constant-preservation applied to the block
`DCDownBlock2d(4, 8, downsample=True, shortcut=True)` (whose `group_size`
is 2) and the all-fives feature map. -/
theorem down_shortcut_constant_witness :
    DCDownBlock2d.init 4 8 true true = Except.ok ⟨4, 8, true, true, 2⟩ ∧
    0 < (2 : ℕ) ∧
    Tens.IsConst (fun _ _ _ => (5 : ℚ)) 5 ∧
    Tens.IsConst (DCDownBlock2d.shortcut_branch 2 (fun _ _ _ => (5 : ℚ))) 5 :=
  ⟨by decide, by decide, fun _ _ _ => rfl,
   down_shortcut_constant ⟨4, 8, true, true, 2⟩ 4 8 true (fun _ _ _ => (5 : ℚ)) 5
     (by decide) (by decide) (fun _ _ _ => rfl)⟩

/-- C5: the linear-cost attention path computes the padded-ones product
chain `((V_padded · Kᵀ) · Q)` and divides every non-bias row by the bias row
plus `eps`; entrywise the result equals `(V · Kᵀ · Q)` renormalized by
`(1ᵀ · Kᵀ · Q) + eps` at each spatial position. -/
theorem apply_linear_attention_renormalized (d n : ℕ) (eps : ℚ)
    (query key value : Matrix (Fin d) (Fin n) ℚ) :
    SanaMultiscaleLinearAttention.apply_linear_attention eps query key value =
      fun i j => (value * key.transpose * query) i j /
                 ((onesRow n * key.transpose * query) 0 j + eps) := by
  funext i j
  simp [SanaMultiscaleLinearAttention.apply_linear_attention,
    SanaMultiscaleLinearAttention.padValue, onesRow, Matrix.mul_apply,
    Fin.lastCases_castSucc, Fin.lastCases_last]

/-- C7 counterexample: with the eps actually used by the code (`1e-5`), the
pre-affine RMS normalization is not exactly invariant under positive
rescaling: doubling the one-element vector `(1)` changes the normalized
value. -/
theorem rmsnorm_eps_breaks_scale_invariance :
    ¬ RMSNorm.normalize RMSNorm.eps_used ((2 : ℝ) • ![(1 : ℝ)])
        = RMSNorm.normalize RMSNorm.eps_used ![(1 : ℝ)] := by
  intro hEq
  have h0 := congrFun hEq 0
  simp [RMSNorm.normalize, RMSNorm.eps_used, Fin.sum_univ_one] at h0
  have h4 : Real.sqrt (4 + 1 / 100000) ^ 2 = 4 + 1 / 100000 := Real.sq_sqrt (by norm_num)
  have h1 : Real.sqrt (1 + 1 / 100000) ^ 2 = 1 + 1 / 100000 := Real.sq_sqrt (by norm_num)
  have h4p : 0 < Real.sqrt (4 + 1 / 100000) := Real.sqrt_pos.mpr (by norm_num)
  have h1p : 0 < Real.sqrt (1 + 1 / 100000) := Real.sqrt_pos.mpr (by norm_num)
  have e1 : (2 : ℝ) ^ 2 + 100000⁻¹ = 4 + 1 / 100000 := by norm_num
  have e2 : (1 : ℝ) + 100000⁻¹ = 1 + 1 / 100000 := by norm_num
  rw [e1, e2] at h0
  field_simp at h0
  have hsq := congrArg (fun y : ℝ => y ^ 2) h0
  simp only [mul_pow, h4, h1] at hsq
  norm_num at hsq

/-- C7 amended: the pre-affine RMS normalization is exactly invariant under
positive rescaling when `eps = 0` (the `+ eps` term is what breaks exact
invariance for the positive eps the code uses). -/
theorem rmsnorm_scale_invariant_without_eps {n : ℕ} (c : ℝ) (hc : 0 < c) (x : Fin n → ℝ) :
    RMSNorm.normalize 0 (c • x) = RMSNorm.normalize 0 x := by
  funext i
  unfold RMSNorm.normalize
  have hsum : (∑ j, (c • x) j ^ 2) = c ^ 2 * ∑ j, x j ^ 2 := by
    simp [Pi.smul_apply, smul_eq_mul, mul_pow, Finset.mul_sum]
  rw [hsum, add_zero, add_zero, mul_div_assoc,
    Real.sqrt_mul (by positivity) ((∑ j, x j ^ 2) / n),
    Real.sqrt_sq hc.le]
  have hsmul : (c • x) i = c * x i := rfl
  rw [hsmul, mul_inv]
  calc c * x i * (c⁻¹ * (Real.sqrt ((∑ j, x j ^ 2) / n))⁻¹)
      = (c * c⁻¹) * (x i * (Real.sqrt ((∑ j, x j ^ 2) / n))⁻¹) := by ring
    _ = x i * (Real.sqrt ((∑ j, x j ^ 2) / n))⁻¹ := by
        rw [mul_inv_cancel₀ (ne_of_gt hc), one_mul]

/-- C7 witness: the eps-free invariance applied at `c = 2`, `x = (3)`. -/
theorem rmsnorm_scale_invariant_without_eps_witness :
    0 < (2 : ℝ) ∧
    RMSNorm.normalize 0 ((2 : ℝ) • ![(3 : ℝ)]) = RMSNorm.normalize 0 ![(3 : ℝ)] :=
  ⟨zero_lt_two, rmsnorm_scale_invariant_without_eps 2 zero_lt_two ![(3 : ℝ)]⟩

lemma except_bind_ok {α β : Type} {e : Except PyErr α} {f : α → Except PyErr β} {c : β}
    (h : e.bind f = Except.ok c) : ∃ b, e = Except.ok b ∧ f b = Except.ok c := by
  cases e with
  | error err => simp [Except.bind] at h
  | ok b => exact ⟨b, rfl, by simpa [Except.bind] using h⟩

lemma except_map_ok {α β : Type} {e : Except PyErr α} {f : α → β} {c : β}
    (h : e.map f = Except.ok c) : ∃ b, e = Except.ok b ∧ c = f b := by
  cases e with
  | error err => simp [Except.map] at h
  | ok b => exact ⟨b, rfl, by simp [Except.map] at h; exact h.symm⟩

lemma except_ok_bind {α β : Type} (a : α) (f : α → Except PyErr β) :
    (Except.ok a).bind f = f a := rfl

lemma addShapes_ok {x y t : Shape} (h : addShapes x y = Except.ok t) : x = y ∧ t = x := by
  unfold addShapes at h
  split at h
  · exact ⟨by assumption, by injection h with h'; exact h'.symm⟩
  · exact absurd h (by simp)

lemma conv2dShape_s1_ok {i o : ℕ} {sh t : Shape}
    (h : conv2dShape i o 3 1 1 sh = Except.ok t) :
    sh.c = i ∧ t = ⟨o, sh.h, sh.w⟩ := by
  unfold conv2dShape at h
  split at h
  · next hcond =>
    obtain ⟨hc, hh, hw⟩ := hcond
    injection h with h'
    refine ⟨hc, ?_⟩
    rw [← h']
    simp only [Shape.mk.injEq, true_and, eq_self_iff_true]
    constructor <;> omega
  · exact absurd h (by simp)

lemma pixel_unshuffleShape_ok {sh t : Shape}
    (h : pixel_unshuffleShape 2 sh = Except.ok t) :
    sh.h % 2 = 0 ∧ sh.w % 2 = 0 ∧ t = ⟨sh.c * 2 ^ 2, sh.h / 2, sh.w / 2⟩ := by
  unfold pixel_unshuffleShape at h
  split at h
  · next hcond =>
    injection h with h'
    exact ⟨hcond.2.1, hcond.2.2, h'.symm⟩
  · exact absurd h (by simp)

lemma unflatten_meanShape_ok {g : ℕ} {sh t : Shape}
    (h : unflatten_meanShape g sh = Except.ok t) : t.h = sh.h ∧ t.w = sh.w := by
  unfold unflatten_meanShape at h
  split at h
  · injection h with h'
    rw [← h']
    exact ⟨rfl, rfl⟩
  · exact absurd h (by simp)

lemma resBlock_fwdShape_ok {b : ResBlock} {sh t : Shape}
    (h : b.fwdShape sh = Except.ok t) : t = sh := by
  unfold ResBlock.fwdShape at h
  obtain ⟨x, hx, hadd⟩ := except_bind_ok h
  obtain ⟨hxy, hty⟩ := addShapes_ok hadd
  rw [hty, hxy]

lemma sanaAttn_fwdShape_ok {a : SanaMultiscaleLinearAttentionCfg} {sh t : Shape}
    (hres : a.residual_connection = true)
    (h : a.fwdShape sh = Except.ok t) : t = sh := by
  unfold SanaMultiscaleLinearAttentionCfg.fwdShape at h
  obtain ⟨o, ho, hif⟩ := except_bind_ok h
  rw [hres] at hif
  simp only [if_true] at hif
  obtain ⟨hxy, hty⟩ := addShapes_ok hif
  rw [hty, hxy]

lemma glumb_fwdShape_ok {i o : ℕ} {sh t : Shape}
    (h : GLUMBConv.fwdShape i o sh = Except.ok t) : t = sh := by
  unfold GLUMBConv.fwdShape at h
  obtain ⟨x, hx, hadd⟩ := except_bind_ok h
  obtain ⟨hxy, hty⟩ := addShapes_ok hadd
  rw [hty, hxy]

lemma vit_fwdShape_ok {b : EfficientViTBlock} {sh t : Shape}
    (hres : b.attn.residual_connection = true)
    (h : b.fwdShape sh = Except.ok t) : t = sh := by
  unfold EfficientViTBlock.fwdShape at h
  obtain ⟨u, hu, hg⟩ := except_bind_ok h
  rw [glumb_fwdShape_ok hg, sanaAttn_fwdShape_ok hres hu]

lemma dcDown_init_fields {i o : ℕ} {ds sc : Bool} {b : DCDownBlock2d}
    (h : DCDownBlock2d.init i o ds sc = Except.ok b) :
    b.shortcut = sc ∧ b.in_channels = i ∧ b.out_channels = o ∧ b.downsample = ds := by
  unfold DCDownBlock2d.init at h
  split at h
  · exact absurd h (by simp)
  · split at h
    · exact absurd h (by simp)
    · injection h with h'
      rw [← h']
      exact ⟨rfl, rfl, rfl, rfl⟩

lemma dcDown_fwdShape_halves {b : DCDownBlock2d} {sh t : Shape}
    (hsc : b.shortcut = true)
    (h : b.fwdShape sh = Except.ok t) : t.h = sh.h / 2 ∧ t.w = sh.w / 2 := by
  unfold DCDownBlock2d.fwdShape at h
  obtain ⟨x0, hx0, h⟩ := except_bind_ok h
  obtain ⟨x, hx, h⟩ := except_bind_ok h
  rw [hsc] at h
  simp only [if_true] at h
  obtain ⟨y0, hy0, h⟩ := except_bind_ok h
  obtain ⟨y, hy, hadd⟩ := except_bind_ok h
  obtain ⟨hxy, htx⟩ := addShapes_ok hadd
  obtain ⟨_, _, hy0eq⟩ := pixel_unshuffleShape_ok hy0
  obtain ⟨hyh, hyw⟩ := unflatten_meanShape_ok hy
  rw [htx, hxy]
  rw [hy0eq] at hyh hyw
  exact ⟨hyh, hyw⟩

lemma sanaAttn_init_residual {i o d : ℕ} {nt : String} {ks : List ℕ} {rc : Bool}
    {a : SanaMultiscaleLinearAttentionCfg}
    (h : SanaMultiscaleLinearAttentionCfg.init i o d nt ks rc = Except.ok a) :
    a.residual_connection = rc := by
  unfold SanaMultiscaleLinearAttentionCfg.init at h
  split at h
  · exact absurd h (by simp)
  · obtain ⟨u, hu, h⟩ := except_bind_ok h
    obtain ⟨v, hv, h⟩ := except_bind_ok h
    injection h with h'
    rw [← h']

lemma get_block_preserves {bt : String} {i o d : ℕ} {nt af : String} {ks : List ℕ}
    {b : EncBlock} (hgb : get_block bt i o d nt af ks = Except.ok b) :
    ∀ sh t, b.fwdShape sh = Except.ok t → t = sh := by
  unfold get_block at hgb
  split at hgb
  · obtain ⟨rb, hrb, hbeq⟩ := except_map_ok hgb
    intro sh t h
    rw [hbeq] at h
    exact resBlock_fwdShape_ok h
  · split at hgb
    · obtain ⟨vb, hvb, hbeq⟩ := except_map_ok hgb
      intro sh t h
      rw [hbeq] at h
      unfold EfficientViTBlock.init at hvb
      obtain ⟨a, ha, hvb'⟩ := except_bind_ok hvb
      have hres : vb.attn.residual_connection = true := by
        injection hvb' with h'
        rw [← h']
        exact sanaAttn_init_residual ha
      exact vit_fwdShape_ok hres h
    · exact absurd hgb (by simp)

lemma fwdList_replicate {b : EncBlock}
    (hpres : ∀ sh t, b.fwdShape sh = Except.ok t → t = sh) :
    ∀ (m : ℕ) (sh t : Shape),
      Encoder.fwdList (List.replicate m b) sh = Except.ok t → t = sh := by
  intro m
  induction m with
  | zero =>
    intro sh t h
    simp only [List.replicate, Encoder.fwdList] at h
    injection h with h'
    exact h'.symm
  | succ m ih =>
    intro sh t h
    simp only [List.replicate, Encoder.fwdList] at h
    obtain ⟨u, hu, h⟩ := except_bind_ok h
    rw [ih sh t (by rw [← hpres sh u hu]; exact h)]

lemma fwdList_append {L1 L2 : List EncBlock} :
    ∀ {sh t : Shape}, Encoder.fwdList (L1 ++ L2) sh = Except.ok t →
      ∃ m, Encoder.fwdList L1 sh = Except.ok m ∧ Encoder.fwdList L2 m = Except.ok t := by
  induction L1 with
  | nil =>
    intro sh t h
    exact ⟨sh, rfl, h⟩
  | cons b rest ih =>
    intro sh t h
    simp only [List.cons_append, Encoder.fwdList] at h
    obtain ⟨u, hu, h⟩ := except_bind_ok h
    obtain ⟨m, hm1, hm2⟩ := ih h
    refine ⟨m, ?_, hm2⟩
    simp only [Encoder.fwdList]
    rw [hu]
    exact hm1

lemma buildStages_spatial (d : ℕ) (ds : Bool) (S : ℕ) :
    ∀ (scs : List StageCfg) (i : ℕ) (L : List EncBlock) (sh t : Shape),
      (∀ s ∈ scs, 0 < s.num_layers) →
      i + scs.length = S →
      Encoder.buildStages d ds S i scs = Except.ok L →
      Encoder.fwdList L sh = Except.ok t →
      t.h = sh.h / 2 ^ (scs.length - 1) ∧ t.w = sh.w / 2 ^ (scs.length - 1) := by
  intro scs
  induction scs with
  | nil =>
    intro i L sh t _ _ hbs hfl
    simp only [Encoder.buildStages] at hbs
    injection hbs with hbs'
    rw [← hbs'] at hfl
    simp only [Encoder.fwdList] at hfl
    injection hfl with hfl'
    rw [← hfl']
    simp
  | cons s rest ih =>
    intro i L sh t hpos hlen hbs hfl
    simp only [Encoder.buildStages] at hbs
    obtain ⟨b, hgb, hbs⟩ := except_bind_ok hbs
    obtain ⟨sblocks, hsb, hbs⟩ := except_bind_ok hbs
    obtain ⟨more, hmore, hok⟩ := except_bind_ok hbs
    injection hok with hok'
    rw [← hok'] at hfl
    obtain ⟨m, hm1, hm2⟩ := fwdList_append hfl
    rcases rest with _ | ⟨r, rest'⟩
    · simp only [List.length_cons, List.length_nil] at hlen
      have hnot : ¬ (i < S - 1 ∧ 0 < s.num_layers) := fun hx => by omega
      rw [if_neg hnot] at hsb
      injection hsb with hsb'
      simp only [Encoder.buildStages] at hmore
      injection hmore with hmore'
      rw [← hmore'] at hm2
      simp only [Encoder.fwdList] at hm2
      injection hm2 with hm2'
      rw [← hsb'] at hm1
      have hmsh : m = sh := fwdList_replicate (get_block_preserves hgb) _ _ _ hm1
      rw [← hm2', hmsh]
      simp
    · have hcond : i < S - 1 ∧ 0 < s.num_layers := by
        constructor
        · simp only [List.length_cons] at hlen
          omega
        · exact hpos s (List.mem_cons_self s _)
      rw [if_pos hcond] at hsb
      obtain ⟨db, hdb, hsbeq⟩ := except_map_ok hsb
      rw [hsbeq] at hm1
      obtain ⟨m1, hm11, hm12⟩ := fwdList_append hm1
      have hm1sh : m1 = sh := fwdList_replicate (get_block_preserves hgb) _ _ _ hm11
      simp only [Encoder.fwdList] at hm12
      obtain ⟨m2, hm2d, hm2rest⟩ := except_bind_ok hm12
      injection hm2rest with hm2eq
      simp only [EncBlock.fwdShape] at hm2d
      have hscut : db.shortcut = true := (dcDown_init_fields hdb).1
      obtain ⟨hmh, hmw⟩ := dcDown_fwdShape_halves hscut hm2d
      have hpos' : ∀ s' ∈ r :: rest', 0 < s'.num_layers :=
        fun s' hs' => hpos s' (List.mem_cons_of_mem _ hs')
      have hlen' : (i + 1) + (r :: rest').length = S := by
        simp only [List.length_cons] at hlen ⊢
        omega
      obtain ⟨ihh, ihw⟩ := ih (i + 1) more m t hpos' hlen' hmore hm2
      have hlh : m.h = sh.h / 2 := by rw [← hm2eq, hmh, hm1sh]
      have hlw : m.w = sh.w / 2 := by rw [← hm2eq, hmw, hm1sh]
      constructor
      · rw [ihh, hlh]
        simp only [List.length_cons, Nat.add_sub_cancel]
        rw [Nat.div_div_eq_div_mul, ← pow_succ']
      · rw [ihw, hlw]
        simp only [List.length_cons, Nat.add_sub_cancel]
        rw [Nat.div_div_eq_div_mul, ← pow_succ']

lemma mkStageCfgs_length : ∀ (cs ns : List ℕ) (ts : List String) (qs : List (List ℕ)),
    ns.length = cs.length → ts.length = cs.length → qs.length = cs.length →
    (mkStageCfgs cs ns ts qs).length = cs.length := by
  intro cs
  induction cs with
  | nil =>
    intro ns ts qs hns hts hqs
    rw [List.length_eq_zero.mp hns, List.length_eq_zero.mp hts, List.length_eq_zero.mp hqs]
    rfl
  | cons c cs ih =>
    intro ns ts qs hns hts hqs
    rcases ns with _ | ⟨n, ns⟩
    · simp at hns
    · rcases ts with _ | ⟨a, ts⟩
      · simp at hts
      · rcases qs with _ | ⟨q, qs⟩
        · simp at hqs
        · simp only [mkStageCfgs, List.length_cons]
          simp only [List.length_cons] at hns hts hqs
          rw [ih ns ts qs (by omega) (by omega) (by omega)]

lemma mkStageCfgs_mem_num_layers : ∀ (cs ns : List ℕ) (ts : List String)
    (qs : List (List ℕ)) (s : StageCfg), s ∈ mkStageCfgs cs ns ts qs → s.num_layers ∈ ns := by
  intro cs
  induction cs with
  | nil =>
    intro ns ts qs s hs
    rcases ns with _ | ⟨n, ns⟩ <;> rcases ts with _ | ⟨a, ts⟩ <;>
      rcases qs with _ | ⟨q, qs⟩ <;> simp [mkStageCfgs] at hs
  | cons c cs ih =>
    intro ns ts qs s hs
    rcases ns with _ | ⟨n, ns⟩
    · simp [mkStageCfgs] at hs
    · rcases ts with _ | ⟨a, ts⟩
      · simp [mkStageCfgs] at hs
      · rcases qs with _ | ⟨q, qs⟩
        · simp [mkStageCfgs] at hs
        · simp only [mkStageCfgs, List.mem_cons] at hs
          rcases hs with hs | hs
          · rw [hs]
            exact List.mem_cons_self n ns
          · exact List.mem_cons_of_mem n (ih ns ts qs s hs)

/-- C4 counterexample: a configured three-stage encoder whose middle stage
has zero layers runs successfully on an `8 × 8` input (divisible by
`2^(S-1) = 4`) but produces spatial size `4 × 4`, not the `2 × 2` the claim
requires: the middle stage contributes no down-sampling block. -/
theorem encoder_zero_layer_stage_counterexample :
    (2 ^ (3 - 1) ∣ 8) ∧
    Encoder.runShape ⟨3, 4, 32, [("ResBlock"), ("ResBlock"), ("ResBlock")], [4, 8, 8],
        [1, 0, 1], [[], [], []], ("pixel_unshuffle"), true⟩ ⟨3, 8, 8⟩
      = Except.ok ⟨4, 4, 4⟩ ∧
    ¬ (Shape.mk 4 4 4) = ⟨4, 8 / 2 ^ (3 - 1), 8 / 2 ^ (3 - 1)⟩ :=
  ⟨by decide, by rfl, by decide⟩

/-- C4 amended: for a configured Encoder whose per-stage tuples have equal
length `S` and all of whose stages have at least one layer, whenever the
forward pass completes on an input of spatial size `(H, W)` its output has
channel count `latent_channels` and spatial size `(H / 2^(S-1), W / 2^(S-1))`
(a stage with zero layers would skip its down-sampling block and break this;
configurations whose channel arithmetic fails simply error out and are not
constrained). -/
theorem encoder_shape_contract_amended (cfg : EncoderCfg) (h w : ℕ) (t : Shape)
    (hbt : cfg.block_type.length = cfg.block_out_channels.length)
    (hlp : cfg.layers_per_block.length = cfg.block_out_channels.length)
    (hqk : cfg.qkv_multiscales.length = cfg.block_out_channels.length)
    (hpos : 0 ∉ cfg.layers_per_block)
    (hrun : Encoder.runShape cfg ⟨cfg.in_channels, h, w⟩ = Except.ok t) :
    t = ⟨cfg.latent_channels, h / 2 ^ (cfg.block_out_channels.length - 1),
         w / 2 ^ (cfg.block_out_channels.length - 1)⟩ := by
  unfold Encoder.runShape at hrun
  obtain ⟨e, hinit, hfwd⟩ := except_bind_ok hrun
  unfold Encoder.init at hinit
  rcases hboc : cfg.block_out_channels with _ | ⟨boc0, bocRest⟩
  · rw [hboc] at hinit
    exact absurd hinit (by simp)
  · rcases hlpb : cfg.layers_per_block with _ | ⟨lpb0, lpbRest⟩
    · rw [hboc, hlpb] at hinit
      exact absurd hinit (by simp)
    · simp only [hboc, hlpb] at hinit
      have hlpb0 : 0 < lpb0 := by
        have hne : lpb0 ≠ 0 := by
          intro hz
          apply hpos
          rw [hlpb, ← hz]
          exact List.mem_cons_self lpb0 lpbRest
        omega
      rw [if_pos hlpb0, except_ok_bind] at hinit
      obtain ⟨blocks, hblocks, hinit⟩ := except_bind_ok hinit
      obtain ⟨gs, hgs, hinit⟩ := except_bind_ok hinit
      injection hinit with he
      rw [← he] at hfwd
      unfold Encoder.fwdShape at hfwd
      simp only [EncConvIn.fwdShape] at hfwd
      obtain ⟨x, hx, hfwd⟩ := except_bind_ok hfwd
      obtain ⟨hxc, hxeq⟩ := conv2dShape_s1_ok hx
      obtain ⟨x2, hx2, hfwd⟩ := except_bind_ok hfwd
      have hmkLen : (mkStageCfgs cfg.block_out_channels cfg.layers_per_block
          cfg.block_type cfg.qkv_multiscales).length = cfg.block_out_channels.length :=
        mkStageCfgs_length _ _ _ _ hlp hbt hqk
      have hposS : ∀ s ∈ mkStageCfgs cfg.block_out_channels cfg.layers_per_block
          cfg.block_type cfg.qkv_multiscales, 0 < s.num_layers := by
        intro s hs
        have hmem := mkStageCfgs_mem_num_layers _ _ _ _ s hs
        have hnz : s.num_layers ≠ 0 := fun hz => hpos (hz ▸ hmem)
        omega
      have hlenS : 0 + (mkStageCfgs cfg.block_out_channels cfg.layers_per_block
          cfg.block_type cfg.qkv_multiscales).length = cfg.block_out_channels.length := by
        rw [hmkLen]
        omega
      rw [← hboc, ← hlpb] at hblocks
      obtain ⟨hx2h, hx2w⟩ :=
        buildStages_spatial cfg.attention_head_dim
          (cfg.downsample_block_type = ("pixel_unshuffle")) cfg.block_out_channels.length
          _ 0 blocks x x2 hposS hlenS hblocks hx2
      rw [hmkLen] at hx2h hx2w
      rw [hxeq] at hx2h hx2w
      rcases hos : cfg.out_shortcut with _ | _
      · rw [hos] at hfwd
        simp only [Bool.false_eq_true, if_false] at hfwd
        obtain ⟨hzc, hzeq⟩ := conv2dShape_s1_ok hfwd
        rw [hzeq]
        simp only [Shape.mk.injEq, true_and, eq_self_iff_true]
        exact ⟨by rw [hx2h, hboc], by rw [hx2w, hboc]⟩
      · rw [hos] at hfwd
        simp only [if_true] at hfwd
        obtain ⟨y, hy, hfwd⟩ := except_bind_ok hfwd
        obtain ⟨z, hz, hadd⟩ := except_bind_ok hfwd
        obtain ⟨hzy, htz⟩ := addShapes_ok hadd
        obtain ⟨hzc, hzeq⟩ := conv2dShape_s1_ok hz
        rw [htz, hzeq]
        simp only [Shape.mk.injEq, true_and, eq_self_iff_true]
        exact ⟨by rw [hx2h, hboc], by rw [hx2w, hboc]⟩

/-- C4 witness: the amended shape contract applied to the spec's end-to-end
scenario (two stages, `block_out_channels = (8, 16)`, one layer each,
`latent_channels = 4`, input `16 × 16`), whose forward pass evaluates to a
`(4, 8, 8)` latent. -/
theorem encoder_shape_contract_amended_witness :
    (([("ResBlock"), ("ResBlock")] : List String).length = ([8, 16] : List ℕ).length) ∧
    (([1, 1] : List ℕ).length = ([8, 16] : List ℕ).length) ∧
    (([[], []] : List (List ℕ)).length = ([8, 16] : List ℕ).length) ∧
    (0 ∉ ([1, 1] : List ℕ)) ∧
    Encoder.runShape ⟨3, 4, 32, [("ResBlock"), ("ResBlock")], [8, 16], [1, 1], [[], []],
        ("pixel_unshuffle"), true⟩ ⟨3, 16, 16⟩ = Except.ok ⟨4, 8, 8⟩ ∧
    (Shape.mk 4 8 8) = ⟨4, 16 / 2 ^ (([8, 16] : List ℕ).length - 1),
                        16 / 2 ^ (([8, 16] : List ℕ).length - 1)⟩ :=
  ⟨by decide, by decide, by decide, by decide, by rfl,
   encoder_shape_contract_amended
     ⟨3, 4, 32, [("ResBlock"), ("ResBlock")], [8, 16], [1, 1], [[], []],
      ("pixel_unshuffle"), true⟩ 16 16 ⟨4, 8, 8⟩
     (by decide) (by decide) (by decide) (by decide) (by rfl)⟩
